import Mathlib

/-!
Verification of the ortools-lab repository's constraint models.

The repository builds three CP-SAT constraint models in Python:
driver scheduling with free-day indicators (`driverscheduling.py`),
nurse shift assignment (`nursescheduling.py`) and a boolean
implication puzzle (`implications.py`).  We embed the constraint
systems shallowly: a boolean decision variable becomes a `Bool` field
of an assignment function, each registered constraint becomes a
bounded-quantifier proposition over the assignment, and a model's
satisfying assignments are those meeting every registered constraint.
The solution-callback counter logic is embedded as a state-passing
function.
-/

set_option maxRecDepth 100000

namespace DriverScheduling

/-- States a driver can be in during a time block (`State` IntEnum,
with values FREE = 0, DRIVE = 1, REST = 2). -/
inductive State where
  | FREE
  | DRIVE
  | REST
deriving DecidableEq, Repr

/-- Integer value of the IntEnum member. -/
def State.val : State → Nat
  | .FREE => 0
  | .DRIVE => 1
  | .REST => 2

/-- Source `State.is_work`: `return self.value != State.FREE` (IntEnum
comparison, so `State.FREE` compares as its value 0). -/
def State.is_work (s : State) : Bool :=
  s.val != State.FREE.val

def minutes_per_timeblock : Nat := 30

def num_drivers : Nat := 6

def num_timeblocks : Nat := 6

def num_days : Nat := 1

def min_total_timeblocks_per_driver_per_working_day : Nat := 4

def max_total_timeblocks_per_driver_per_day : Nat := 5

def max_consecutive_driving_timeblocks : Nat := 2

def all_drivers : List Nat := List.range num_drivers

def all_timeblocks : List Nat := List.range num_timeblocks

def all_days : List Nat := List.range num_days

def all_states : List State := [State.FREE, State.DRIVE, State.REST]

def all_work_states : List State := all_states.filter State.is_work

/-- A truth assignment to all decision variables of the driver model:
`timeblocks` maps the key (driver, day, block, state) of each grid
variable to its value, `free_days` maps (driver, day) to the value of
the free-day indicator variable. -/
structure DriverAssignment where
  timeblocks : Nat → Nat → Nat → State → Bool
  free_days : Nat → Nat → Bool

/-- Constraints from the free-day indicator loop: for every driver,
day and block, `AddImplication(free_block.Not(), free_day.Not())` and
`AddImplication(free_day, free_block)`. -/
def freeDayCons (A : DriverAssignment) : Prop :=
  ∀ driver < num_drivers, ∀ day < num_days, ∀ block < num_timeblocks,
    (A.timeblocks driver day block State.FREE = false →
      A.free_days driver day = false) ∧
    (A.free_days driver day = true →
      A.timeblocks driver day block State.FREE = true)

/-- Each time block has exactly one driver driving:
`sum(timeblocks[(driver, day, block, DRIVE)] for driver) == 1`. -/
def coverageCons (A : DriverAssignment) : Prop :=
  ∀ day < num_days, ∀ block < num_timeblocks,
    ((all_drivers.map
      (fun driver => (A.timeblocks driver day block State.DRIVE).toNat)).sum = 1)

/-- Each driver does exactly one thing in each time block:
`sum(timeblocks[(driver, day, block, state)] for state) == 1`. -/
def exclusivityCons (A : DriverAssignment) : Prop :=
  ∀ driver < num_drivers, ∀ day < num_days, ∀ block < num_timeblocks,
    ((all_states.map
      (fun s => (A.timeblocks driver day block s).toNat)).sum = 1)

/-- Sum over all (block, work state) pairs of the corresponding
decision variables, as in the two workload constraints. -/
def work_sum (A : DriverAssignment) (driver day : Nat) : Nat :=
  ((all_timeblocks.map (fun block =>
    ((all_work_states.map
      (fun s => (A.timeblocks driver day block s).toNat)).sum))).sum)

/-- Max time blocks per day including rest: `work_sum <= 5`. -/
def maxWorkCons (A : DriverAssignment) : Prop :=
  ∀ driver < num_drivers, ∀ day < num_days,
    work_sum A driver day ≤ max_total_timeblocks_per_driver_per_day

/-- Min time blocks per working day including rest:
`work_sum >= min * free_day.Not()`, where the negated boolean is
`1 - free_day` as an integer. -/
def minWorkCons (A : DriverAssignment) : Prop :=
  ∀ driver < num_drivers, ∀ day < num_days,
    min_total_timeblocks_per_driver_per_working_day *
      (1 - (A.free_days driver day).toNat) ≤ work_sum A driver day

/-- Python slice `all_timeblocks[start : start + max_consecutive + 1]`. -/
def too_much_driving (start_block_index : Nat) : List Nat :=
  (all_timeblocks.drop start_block_index).take
    (max_consecutive_driving_timeblocks + 1)

/-- Max consecutive driving blocks: for every start index whose slice
has full length `max_consecutive + 1`, the DRIVE variables in the
slice sum to at most `max_consecutive`. -/
def consecutiveCons (A : DriverAssignment) : Prop :=
  ∀ driver < num_drivers, ∀ day < num_days,
    ∀ start_block_index < num_timeblocks,
      (too_much_driving start_block_index).length =
        max_consecutive_driving_timeblocks + 1 →
      ((too_much_driving start_block_index).map
        (fun block => (A.timeblocks driver day block State.DRIVE).toNat)).sum
        ≤ max_consecutive_driving_timeblocks

/-- An assignment satisfies the driver-scheduling model when it meets
every constraint registered on the CpModel. -/
def satisfies (A : DriverAssignment) : Prop :=
  freeDayCons A ∧ coverageCons A ∧ exclusivityCons A ∧
    maxWorkCons A ∧ minWorkCons A ∧ consecutiveCons A

instance (A : DriverAssignment) : Decidable (freeDayCons A) := by
  unfold freeDayCons; infer_instance

instance (A : DriverAssignment) : Decidable (coverageCons A) := by
  unfold coverageCons; infer_instance

instance (A : DriverAssignment) : Decidable (exclusivityCons A) := by
  unfold exclusivityCons; infer_instance

instance (A : DriverAssignment) : Decidable (maxWorkCons A) := by
  unfold maxWorkCons; infer_instance

instance (A : DriverAssignment) : Decidable (minWorkCons A) := by
  unfold minWorkCons; infer_instance

instance (A : DriverAssignment) : Decidable (consecutiveCons A) := by
  unfold consecutiveCons; infer_instance

instance (A : DriverAssignment) : Decidable (satisfies A) := by
  unfold satisfies; infer_instance

/-- A concrete schedule: drivers 0, 1, 2 each drive two blocks and
rest two blocks; drivers 3, 4, 5 have a free day. -/
def exPattern (d b : Nat) : State :=
  if d = 0 then (if b ≤ 1 then .DRIVE else if b ≤ 3 then .REST else .FREE)
  else if d = 1 then (if b ≤ 1 then .REST else if b ≤ 3 then .DRIVE else .FREE)
  else if d = 2 then (if b ≤ 1 then .REST else if b ≤ 3 then .FREE else .DRIVE)
  else .FREE

def exA : DriverAssignment where
  timeblocks := fun d _ b st => exPattern d b == st
  free_days := fun d _ => decide (3 ≤ d)

/-- A concrete schedule where driver 0 drives blocks 0,1 and 3,4: two
maximal-length driving runs separated by one rest block. -/
def exPattern2 (d b : Nat) : State :=
  if d = 0 then (if b = 2 then .REST else if b = 5 then .FREE else .DRIVE)
  else if d = 1 then
    (if b = 2 then .DRIVE else if b = 5 then .DRIVE
     else if b = 4 then .FREE else .REST)
  else .FREE

def exA2 : DriverAssignment where
  timeblocks := fun d _ b st => exPattern2 d b == st
  free_days := fun d _ => decide (2 ≤ d)

/-- Under exclusivity, the flat workload sum used by the constraints
equals the number of blocks whose state is a work state. -/
def work_blocks_count (A : DriverAssignment) (driver day : Nat) : Nat :=
  all_timeblocks.countP (fun block =>
    all_work_states.any (fun s => A.timeblocks driver day block s))

end DriverScheduling

namespace Implications

/-- Constraints registered in `implications()`:
`AddImplication(a, c)`, `AddImplication(a.Not(), c.Not())`,
`AddImplication(b, c)`. -/
def impCons (a b c : Bool) : Prop :=
  (a = true → c = true) ∧ (a = false → c = false) ∧ (b = true → c = true)

instance (a b c : Bool) : Decidable (impCons a b c) := by
  unfold impCons; infer_instance

end Implications

namespace SolutionPrinter

/-- State of a solution callback object: the running count of
delivered solutions and the list of counter values at which the
per-solution print action fired. -/
structure PrinterState where
  solution_count : Nat
  printed : List Nat
deriving Repr, DecidableEq

/-- Source `on_solution_callback`: increment the counter, then perform
the output action exactly when the new counter value is a member of
the set of solutions of interest. -/
def on_solution_callback (sols : List Nat) (st : PrinterState) :
    PrinterState :=
  let c := st.solution_count + 1
  { solution_count := c,
    printed := if c ∈ sols then st.printed ++ [c] else st.printed }

/-- Fold of the callback over `n` delivered solutions, starting from
the freshly constructed printer (counter 0, nothing printed). -/
def runCallbacks (sols : List Nat) : Nat → PrinterState
  | 0 => { solution_count := 0, printed := [] }
  | n + 1 => on_solution_callback sols (runCallbacks sols n)

end SolutionPrinter

namespace NurseScheduling

def num_nurses : Nat := 4

def num_shifts : Nat := 3

def num_days : Nat := 3

def max_shifts_per_nurse_per_day : Nat := 1

def all_nurses : List Nat := List.range num_nurses

def all_shifts : List Nat := List.range num_shifts

def all_days : List Nat := List.range num_days

/-- Constraint registered for every nurse and day:
`sum(shifts[(n, d, s)] for s in all_shifts) <= max_shifts_per_nurse_per_day`. -/
def nurseSat (shifts : Nat → Nat → Nat → Bool) : Prop :=
  ∀ n < num_nurses, ∀ d < num_days,
    ((all_shifts.map (fun s => (shifts n d s).toNat)).sum ≤
      max_shifts_per_nurse_per_day)

/-- A solution of the nurse model restricted to the variable grid:
one boolean per (nurse, day, shift) key in range. -/
def NurseSol : Type :=
  Fin num_nurses → Fin num_days → Fin num_shifts → Bool

instance : DecidableEq NurseSol := by
  unfold NurseSol; infer_instance

instance : Fintype NurseSol := by
  unfold NurseSol; infer_instance

/-- Extension of a grid solution to the total function consumed by the
constraint, false outside the grid. -/
def toShifts (A : NurseSol) : Nat → Nat → Nat → Bool :=
  fun n d s =>
    if hn : n < num_nurses then
      if hd : d < num_days then
        if hs : s < num_shifts then A ⟨n, hn⟩ ⟨d, hd⟩ ⟨s, hs⟩
        else false
      else false
    else false

/-- A grid solution satisfies the nurse model when its extension
satisfies every registered constraint. -/
def nurseSatF (A : NurseSol) : Prop := nurseSat (toShifts A)

instance : DecidablePred nurseSatF := fun A => by
  unfold nurseSatF nurseSat; infer_instance

/-- The sets of solutions of interest handed to the printer:
`a_few_solutions = range(5)`. -/
def a_few_solutions : List Nat := List.range 5

/-- Grid solution with a single shift assigned. -/
def solAt (n0 d0 s0 : Nat) : NurseSol :=
  fun n d s => (n : Nat) == n0 && ((d : Nat) == d0 && (s : Nat) == s0)

/-- Number of distinct satisfying grid solutions of the nurse model,
i.e. the number of solutions a full enumeration delivers. -/
def total_solutions : Nat :=
  ((Finset.univ : Finset NurseSol).filter nurseSatF).card

/-- Five pairwise distinct satisfying grid solutions, indexed by
0 through 4. -/
def enumSol (k : Nat) : NurseSol :=
  if k = 0 then (fun _ _ _ => false)
  else if k = 1 then solAt 0 0 0
  else if k = 2 then solAt 0 0 1
  else if k = 3 then solAt 0 0 2
  else solAt 1 0 0

/-- Numeric fingerprint of a grid solution separating the five
exhibited solutions without comparing functions. -/
def probe (A : NurseSol) : Nat :=
  (toShifts A 0 0 0).toNat + 2 * (toShifts A 0 0 1).toNat +
    4 * (toShifts A 0 0 2).toNat + 8 * (toShifts A 1 0 0).toNat

end NurseScheduling

namespace VariableGrid

/-- Python `range(n)` over a possibly non-positive argument: empty
whenever `n <= 0`. -/
def pyRange (n : Int) : List Int :=
  (List.range n.toNat).map Int.ofNat

/-- Keys of the decision-variable dictionary built by the nested
loops `for driver ... for day ... for block ... for state ...`, each
iteration creating one fresh boolean variable. -/
def timeblock_keys (num_drivers num_days num_timeblocks : Int)
    (states : List DriverScheduling.State) :
    List (Int × Int × Int × DriverScheduling.State) :=
  (pyRange num_drivers).flatMap (fun driver =>
    (pyRange num_days).flatMap (fun day =>
      (pyRange num_timeblocks).flatMap (fun block =>
        states.map (fun st => (driver, day, block, st)))))

end VariableGrid

namespace DriverScheduling

lemma exA_satisfies : satisfies exA := by decide

lemma exA2_satisfies : satisfies exA2 := by decide

/-- The work-state sublist of the state vocabulary evaluates to DRIVE
and REST. -/
lemma all_work_states_eq : all_work_states = [State.DRIVE, State.REST] := rfl

/-- Case analysis for a three-term 0/1 sum equal to one. -/
lemma sum3_cases (f d r : Bool)
    (h : f.toNat + (d.toNat + (r.toNat + 0)) = 1) :
    (f = true ∧ d = false ∧ r = false) ∨
      (f = false ∧ d = true ∧ r = false) ∨
      (f = false ∧ d = false ∧ r = true) := by
  revert f d r; decide

/-- Under a three-state exclusivity sum, the two work-state terms add
up to the boolean disjunction of the work states. -/
lemma sum2_eq_any (f d r : Bool)
    (h : f.toNat + (d.toNat + (r.toNat + 0)) = 1) :
    d.toNat + (r.toNat + 0) = (d || (r || false)).toNat := by
  revert f d r; decide

/-- When the FREE term of an exclusivity sum is one, the work-state
terms vanish. -/
lemma free_block_work_zero (d r : Bool)
    (h : Bool.toNat true + (d.toNat + (r.toNat + 0)) = 1) :
    d.toNat + (r.toNat + 0) = 0 := by
  revert d r; decide

/-- A list of boolean indicators summing to one contains exactly one
true position. -/
lemma existsUnique_state (g : State → Bool)
    (h : (all_states.map fun s => (g s).toNat).sum = 1) :
    ∃! s : State, g s = true := by
  simp only [all_states, List.map_cons, List.map_nil, List.sum_cons,
    List.sum_nil] at h
  rcases sum3_cases _ _ _ h with ⟨h1, h2, h3⟩ | ⟨h1, h2, h3⟩ | ⟨h1, h2, h3⟩
  · exact ⟨State.FREE, h1, by intro t ht; cases t <;> simp_all⟩
  · exact ⟨State.DRIVE, h2, by intro t ht; cases t <;> simp_all⟩
  · exact ⟨State.REST, h3, by intro t ht; cases t <;> simp_all⟩

/-- A sum of boolean indicators over a list equals the count of
positions where the predicate holds. -/
lemma sum_map_toNat_eq_countP (f : Nat → Bool) :
    ∀ l : List Nat, (l.map fun x => (f x).toNat).sum = l.countP f := by
  intro l
  induction l with
  | nil => rfl
  | cons a t ih =>
    simp only [List.map_cons, List.sum_cons, List.countP_cons, ih]
    cases h : f a <;> simp [Nat.add_comm]

/-- A list on which exactly one position satisfies the predicate has a
unique member satisfying it. -/
lemma exists_unique_of_countP_one (f : Nat → Bool) :
    ∀ l : List Nat, l.countP f = 1 →
      ∃ x ∈ l, f x = true ∧ ∀ y ∈ l, f y = true → y = x := by
  intro l
  induction l with
  | nil => intro h; simp at h
  | cons a t ih =>
    intro h
    rw [List.countP_cons] at h
    by_cases ha : f a = true
    · rw [if_pos ha] at h
      have ht : t.countP f = 0 := by omega
      refine ⟨a, List.mem_cons_self a t, ha, ?_⟩
      intro y hy hfy
      rcases List.mem_cons.mp hy with rfl | hyt
      · rfl
      · exact absurd hfy (by simpa using List.countP_eq_zero.mp ht y hyt)
    · rw [if_neg ha] at h
      obtain ⟨x, hx, hfx, huniq⟩ := ih h
      refine ⟨x, List.mem_cons_of_mem _ hx, hfx, ?_⟩
      intro y hy hfy
      rcases List.mem_cons.mp hy with rfl | hyt
      · exact absurd hfy ha
      · exact huniq y hyt hfy

lemma work_sum_eq_work_blocks_count (A : DriverAssignment)
    (driver day : Nat) (hex : exclusivityCons A)
    (hdr : driver < num_drivers) (hday : day < num_days) :
    work_sum A driver day = work_blocks_count A driver day := by
  unfold work_sum work_blocks_count
  rw [← sum_map_toNat_eq_countP]
  refine congrArg List.sum (List.map_congr_left ?_)
  intro b hb
  have hb6 : b < num_timeblocks := by simpa [all_timeblocks] using hb
  have h := hex driver hdr day hday b hb6
  simp only [all_states, List.map_cons, List.map_nil, List.sum_cons,
    List.sum_nil] at h
  simp only [all_work_states_eq, List.map_cons, List.map_nil,
    List.sum_cons, List.sum_nil, List.any_cons, List.any_nil]
  exact sum2_eq_any _ _ _ h

/-- C1 (counterexample): the two registered implications are
contrapositives of each other, so the free-day constraint family on
its own does not force the indicator true when every block is FREE:
the assignment with every FREE variable true and every indicator false
satisfies all the registered free-day implications yet violates the
claimed equivalence at driver 0, day 0. -/
theorem C1_counterexample :
    freeDayCons (DriverAssignment.mk (fun _ _ _ st => st == State.FREE)
      (fun _ _ => false)) ∧
    ¬(((DriverAssignment.mk (fun _ _ _ st => st == State.FREE)
        (fun _ _ => false)).free_days 0 0 = true) ↔
      (∀ block < num_timeblocks,
        (DriverAssignment.mk (fun _ _ _ st => st == State.FREE)
          (fun _ _ => false)).timeblocks 0 0 block State.FREE = true)) := by
  constructor
  · decide
  · decide

/-- C1 (amended): in every satisfying assignment of the full model the
free-day indicator is equivalent to all blocks of that driver and day
being FREE.  The forward direction comes from the registered
implication pair; the backward direction holds because the
minimum-workload constraint forces a non-free day to contain work
blocks, which exclusivity makes non-FREE. -/
theorem C1_free_day_equivalence : ∀ A : DriverAssignment, satisfies A →
    ∀ driver < num_drivers, ∀ day < num_days,
      (A.free_days driver day = true ↔
        ∀ block < num_timeblocks,
          A.timeblocks driver day block State.FREE = true) := by
  intro A hA driver hdr day hday
  obtain ⟨hfd, hcov, hex, hmax, hmin, hcons⟩ := hA
  constructor
  · intro hfree b hb
    exact (hfd driver hdr day hday b hb).2 hfree
  · intro hall
    by_contra hfalse
    have hfree : A.free_days driver day = false := by
      cases hv : A.free_days driver day
      · rfl
      · exact absurd hv hfalse
    have hmin' := hmin driver hdr day hday
    rw [hfree] at hmin'
    have hws : work_sum A driver day = 0 := by
      unfold work_sum
      apply List.sum_eq_zero
      intro x hx
      obtain ⟨b, hbmem, rfl⟩ := List.mem_map.mp hx
      have hb : b < num_timeblocks := by simpa [all_timeblocks] using hbmem
      have hexb := hex driver hdr day hday b hb
      simp only [all_states, List.map_cons, List.map_nil, List.sum_cons,
        List.sum_nil] at hexb
      rw [hall b hb] at hexb
      simp only [all_work_states_eq, List.map_cons, List.map_nil,
        List.sum_cons, List.sum_nil]
      exact free_block_work_zero _ _ hexb
    rw [hws] at hmin'
    simp [min_total_timeblocks_per_driver_per_working_day] at hmin'

/-- C1 (witness): the equivalence instantiated at the concrete
satisfying schedule, driver 3, day 0. -/
theorem C1_witness :
    exA.free_days 3 0 = true ↔
      ∀ block < num_timeblocks, exA.timeblocks 3 0 block State.FREE = true :=
  C1_free_day_equivalence exA exA_satisfies 3 (by decide) 0 (by decide)

/-- C2: in every satisfying assignment, every (driver, day, block)
triple inside the grid bounds has exactly one of the three state
variables true. -/
theorem C2_exclusivity : ∀ A : DriverAssignment, satisfies A →
    ∀ driver < num_drivers, ∀ day < num_days, ∀ block < num_timeblocks,
      ∃! s : State, A.timeblocks driver day block s = true := by
  intro A hA driver hdr day hday block hb
  exact existsUnique_state _ (hA.2.2.1 driver hdr day hday block hb)

/-- C2 (witness): exclusivity instantiated at the concrete satisfying
schedule, driver 0, day 0, block 0. -/
theorem C2_witness : ∃! s : State, exA.timeblocks 0 0 0 s = true :=
  C2_exclusivity exA exA_satisfies 0 (by decide) 0 (by decide) 0 (by decide)

/-- C3: in every satisfying assignment, for every (day, block) the
DRIVE variables sum to one over the drivers, and exactly one driver in
range is driving. -/
theorem C3_coverage : ∀ A : DriverAssignment, satisfies A →
    ∀ day < num_days, ∀ block < num_timeblocks,
      ((all_drivers.map
        (fun driver => (A.timeblocks driver day block State.DRIVE).toNat)).sum
        = 1) ∧
      ∃ d, d < num_drivers ∧ A.timeblocks d day block State.DRIVE = true ∧
        ∀ e, e < num_drivers → A.timeblocks e day block State.DRIVE = true →
          e = d := by
  intro A hA day hday block hb
  have h := hA.2.1 day hday block hb
  refine ⟨h, ?_⟩
  have hc : all_drivers.countP
      (fun d => A.timeblocks d day block State.DRIVE) = 1 := by
    rw [← sum_map_toNat_eq_countP]; exact h
  obtain ⟨x, hx, hfx, huniq⟩ := exists_unique_of_countP_one _ _ hc
  refine ⟨x, by simpa [all_drivers] using hx, hfx, ?_⟩
  intro e he hfe
  exact huniq e (by simpa [all_drivers] using he) hfe

/-- C3 (witness): coverage instantiated at the concrete satisfying
schedule, day 0, block 0. -/
theorem C3_witness :
    ((all_drivers.map
      (fun driver => (exA.timeblocks driver 0 0 State.DRIVE).toNat)).sum
      = 1) ∧
    ∃ d, d < num_drivers ∧ exA.timeblocks d 0 0 State.DRIVE = true ∧
      ∀ e, e < num_drivers → exA.timeblocks e 0 0 State.DRIVE = true →
        e = d :=
  C3_coverage exA exA_satisfies 0 (by decide) 0 (by decide)

/-- C4: in every satisfying assignment, for every (driver, day) the
number of blocks in a work state is at most 5; it is at least
4 times (1 - free-day indicator), hence at least 4 whenever the
free-day indicator is false. -/
theorem C4_workload : ∀ A : DriverAssignment, satisfies A →
    ∀ driver < num_drivers, ∀ day < num_days,
      work_blocks_count A driver day ≤
        max_total_timeblocks_per_driver_per_day ∧
      min_total_timeblocks_per_driver_per_working_day *
        (1 - (A.free_days driver day).toNat) ≤
        work_blocks_count A driver day ∧
      (A.free_days driver day = false →
        min_total_timeblocks_per_driver_per_working_day ≤
          work_blocks_count A driver day) := by
  intro A hA driver hdr day hday
  obtain ⟨hfd, hcov, hex, hmax, hmin, hcons⟩ := hA
  have heq := work_sum_eq_work_blocks_count A driver day hex hdr hday
  refine ⟨heq ▸ hmax driver hdr day hday, heq ▸ hmin driver hdr day hday, ?_⟩
  intro hfree
  have h := hmin driver hdr day hday
  rw [hfree, heq] at h
  simpa using h

/-- C4 (witness): the workload bounds instantiated at the concrete
satisfying schedule, driver 0, day 0. -/
theorem C4_witness :
    work_blocks_count exA 0 0 ≤ max_total_timeblocks_per_driver_per_day ∧
    min_total_timeblocks_per_driver_per_working_day *
      (1 - (exA.free_days 0 0).toNat) ≤ work_blocks_count exA 0 0 ∧
    (exA.free_days 0 0 = false →
      min_total_timeblocks_per_driver_per_working_day ≤
        work_blocks_count exA 0 0) :=
  C4_workload exA exA_satisfies 0 (by decide) 0 (by decide)

/-- C5: in every satisfying assignment, every fully in-bounds window
of 3 consecutive blocks contains at most 2 DRIVE blocks (windows past
the last block are not constrained and there is no wraparound), hence
no run of 3 consecutive DRIVE blocks exists; moreover a satisfying
assignment remains in which two length-2 DRIVE runs are separated by
a single non-DRIVE block. -/
theorem C5_consecutive :
    (∀ A : DriverAssignment, satisfies A →
      ∀ driver < num_drivers, ∀ day < num_days,
        (∀ s, s + (max_consecutive_driving_timeblocks + 1) ≤ num_timeblocks →
          ((List.range (max_consecutive_driving_timeblocks + 1)).map
            (fun i => (A.timeblocks driver day (s + i) State.DRIVE).toNat)).sum
            ≤ max_consecutive_driving_timeblocks) ∧
        (∀ s, s + 2 < num_timeblocks →
          ¬(A.timeblocks driver day s State.DRIVE = true ∧
            A.timeblocks driver day (s + 1) State.DRIVE = true ∧
            A.timeblocks driver day (s + 2) State.DRIVE = true))) ∧
    (satisfies exA2 ∧
      exA2.timeblocks 0 0 0 State.DRIVE = true ∧
      exA2.timeblocks 0 0 1 State.DRIVE = true ∧
      exA2.timeblocks 0 0 2 State.DRIVE = false ∧
      exA2.timeblocks 0 0 3 State.DRIVE = true ∧
      exA2.timeblocks 0 0 4 State.DRIVE = true) := by
  refine ⟨?_, exA2_satisfies, by decide, by decide, by decide, by decide,
    by decide⟩
  intro A hA driver hdr day hday
  have hcons := hA.2.2.2.2.2
  have hwin : ∀ s, s + (max_consecutive_driving_timeblocks + 1) ≤
      num_timeblocks →
      ((List.range (max_consecutive_driving_timeblocks + 1)).map
        (fun i => (A.timeblocks driver day (s + i) State.DRIVE).toNat)).sum
        ≤ max_consecutive_driving_timeblocks := by
    intro s hs
    have hs3 : s ≤ 3 := by
      simp [max_consecutive_driving_timeblocks, num_timeblocks] at hs
      omega
    have h0 := hcons driver hdr day hday 0 (by decide) (by decide)
    have h1 := hcons driver hdr day hday 1 (by decide) (by decide)
    have h2 := hcons driver hdr day hday 2 (by decide) (by decide)
    have h3 := hcons driver hdr day hday 3 (by decide) (by decide)
    interval_cases s
    · simpa [too_much_driving, all_timeblocks,
        max_consecutive_driving_timeblocks, num_timeblocks,
        List.range_succ] using h0
    · simpa [too_much_driving, all_timeblocks,
        max_consecutive_driving_timeblocks, num_timeblocks,
        List.range_succ] using h1
    · simpa [too_much_driving, all_timeblocks,
        max_consecutive_driving_timeblocks, num_timeblocks,
        List.range_succ] using h2
    · simpa [too_much_driving, all_timeblocks,
        max_consecutive_driving_timeblocks, num_timeblocks,
        List.range_succ] using h3
  refine ⟨hwin, ?_⟩
  intro s hs
  rintro ⟨ha, hb, hc⟩
  have h := hwin s (by
    simp only [max_consecutive_driving_timeblocks]
    omega)
  simp only [max_consecutive_driving_timeblocks, List.range_succ,
    List.range_zero, List.map_append, List.map_cons, List.map_nil,
    List.sum_append, List.sum_cons, List.sum_nil, List.nil_append,
    List.cons_append, Nat.add_zero] at h
  rw [ha, hb, hc] at h
  simp at h

/-- C5 (witness): the window bound instantiated at the concrete
satisfying schedule with two separated driving runs, driver 0, day 0,
window starting at block 0. -/
theorem C5_witness :
    ((List.range (max_consecutive_driving_timeblocks + 1)).map
      (fun i => (exA2.timeblocks 0 0 (0 + i) State.DRIVE).toNat)).sum
      ≤ max_consecutive_driving_timeblocks :=
  ((C5_consecutive.1 exA2 C5_consecutive.2.1 0 (by decide) 0
    (by decide)).1 0 (by decide))

/-- C10: a state counts as work exactly when it is not FREE, and the
work-state list used by the workload constraints is exactly
[DRIVE, REST]. -/
theorem C10_is_work :
    (∀ s : State, s.is_work = true ↔ s ≠ State.FREE) ∧
    all_work_states = [State.DRIVE, State.REST] := by
  constructor
  · intro s; cases s <;> simp [State.is_work, State.val]
  · rfl

end DriverScheduling

namespace Implications

/-- C6: an assignment to (a, b, c) satisfies the three registered
implications exactly when it is one of (0,0,0), (1,0,1), (1,1,1). -/
theorem C6_implication_solutions : ∀ a b c : Bool,
    impCons a b c ↔
      ((a, b, c) = (false, false, false) ∨
        (a, b, c) = (true, false, true) ∨
        (a, b, c) = (true, true, true)) := by
  decide

end Implications

namespace SolutionPrinter

lemma runCallbacks_count (sols : List Nat) :
    ∀ n, (runCallbacks sols n).solution_count = n := by
  intro n
  induction n with
  | zero => rfl
  | succ n ih => simp [runCallbacks, on_solution_callback, ih]

lemma runCallbacks_printed_mem (sols : List Nat) :
    ∀ n c, c ∈ (runCallbacks sols n).printed ↔
      (c ∈ sols ∧ 1 ≤ c ∧ c ≤ n) := by
  intro n
  induction n with
  | zero =>
    intro c
    simp [runCallbacks]
    omega
  | succ n ih =>
    intro c
    simp only [runCallbacks, on_solution_callback,
      runCallbacks_count sols n]
    by_cases h : n + 1 ∈ sols
    · rw [if_pos h]
      simp only [List.mem_append, List.mem_singleton, ih]
      constructor
      · rintro (⟨h1, h2, h3⟩ | rfl)
        · exact ⟨h1, h2, by omega⟩
        · exact ⟨h, by omega, by omega⟩
      · rintro ⟨h1, h2, h3⟩
        rcases Nat.lt_or_ge c (n + 1) with hlt | hge
        · exact Or.inl ⟨h1, h2, by omega⟩
        · exact Or.inr (by omega)
    · rw [if_neg h]
      rw [ih]
      constructor
      · rintro ⟨h1, h2, h3⟩
        exact ⟨h1, h2, by omega⟩
      · rintro ⟨h1, h2, h3⟩
        refine ⟨h1, h2, ?_⟩
        rcases Nat.lt_or_ge c (n + 1) with hlt | hge
        · omega
        · exact absurd (by omega : c = n + 1) (fun he => h (he ▸ h1))

/-- C7: the callback counter starts at 0 and is incremented by exactly
one per delivered solution, so after n deliveries it reports n and the
(n+1)-st delivery sees value n+1; the print action fires exactly at
the counter values that belong to the caller-supplied set of solutions
of interest, while the counter keeps incrementing for the others. -/
theorem C7_solution_counter : ∀ (sols : List Nat) (n : Nat),
    (runCallbacks sols n).solution_count = n ∧
    (on_solution_callback sols (runCallbacks sols n)).solution_count =
      n + 1 ∧
    (∀ c, c ∈ (runCallbacks sols n).printed ↔
      (c ∈ sols ∧ 1 ≤ c ∧ c ≤ n)) := by
  intro sols n
  refine ⟨runCallbacks_count sols n, ?_, runCallbacks_printed_mem sols n⟩
  simp [on_solution_callback, runCallbacks_count sols n]

end SolutionPrinter

namespace NurseScheduling

lemma enumSol_sat : ∀ k ∈ Finset.range 5, nurseSatF (enumSol k) := by
  decide

lemma probe_enumSol : ∀ k ∈ Finset.range 5, ∀ l ∈ Finset.range 5,
    probe (enumSol k) = probe (enumSol l) → k = l := by
  decide

lemma total_solutions_ge : 5 ≤ total_solutions := by
  have h := Finset.card_le_card_of_injOn enumSol
    (fun k hk => Finset.mem_filter.mpr ⟨Finset.mem_univ _, enumSol_sat k hk⟩)
    (fun a ha b hb hab =>
      probe_enumSol a (Finset.mem_coe.mp ha) b (Finset.mem_coe.mp hb)
        (congrArg probe hab))
  simpa [Finset.card_range] using h

/-- With solutions of interest `range(5)` and a pre-incremented
counter, the print action fires exactly at counter values 1 through 4,
so after at least four deliveries exactly four solutions have been
printed. -/
lemma printed_length_range5 : ∀ n, 4 ≤ n →
    ((SolutionPrinter.runCallbacks a_few_solutions n).printed).length
      = 4 := by
  intro n hn
  induction n, hn using Nat.le_induction with
  | base => rfl
  | succ n hn ih =>
    have hcount := SolutionPrinter.runCallbacks_count a_few_solutions n
    simp only [SolutionPrinter.runCallbacks,
      SolutionPrinter.on_solution_callback, hcount]
    rw [if_neg (by simp [a_few_solutions, List.mem_range]; omega)]
    exact ih

/-- C8 (counterexample): full enumeration of the nurse scenario
delivers `total_solutions` many solutions to the callback, and the
printer then reports 4 printed solutions, not 5: the counter is
incremented before the membership test, so the values tested against
`range(5)` are 1, 2, 3, ... and only 1 through 4 belong to it. -/
theorem C8_counterexample :
    ((SolutionPrinter.runCallbacks a_few_solutions
      total_solutions).printed).length = 4 ∧
    ((SolutionPrinter.runCallbacks a_few_solutions
      total_solutions).printed).length ≠ 5 := by
  have h4 : 4 ≤ total_solutions := by
    have := total_solutions_ge
    omega
  exact ⟨printed_length_range5 _ h4, by
    rw [printed_length_range5 _ h4]
    omega⟩

/-- C8 (amended): the nurse model (4 nurses, 3 days, 3 shifts, at most
one shift per nurse per day) has at least 5 distinct satisfying
assignments; running the callback over a full enumeration of all of
them with solutions of interest `range(5)` prints exactly 4 of them
(the 1-based counter values 1 through 4 are the only members of
`range(5)` it attains), every counter value that fired lies in
`range(5)`, and the final reported solution count is the total number
delivered, hence at least 5. -/
theorem C8_nurse_scenario :
    5 ≤ total_solutions ∧
    (SolutionPrinter.runCallbacks a_few_solutions
      total_solutions).solution_count = total_solutions ∧
    ((SolutionPrinter.runCallbacks a_few_solutions
      total_solutions).printed).length = 4 ∧
    (∀ c ∈ (SolutionPrinter.runCallbacks a_few_solutions
        total_solutions).printed, c ∈ a_few_solutions ∧ c ≤ total_solutions) := by
  refine ⟨total_solutions_ge, SolutionPrinter.runCallbacks_count _ _,
    printed_length_range5 _ (by have := total_solutions_ge; omega), ?_⟩
  intro c hc
  obtain ⟨h1, h2, h3⟩ :=
    (SolutionPrinter.runCallbacks_printed_mem a_few_solutions
      total_solutions c).mp hc
  exact ⟨h1, h3⟩

end NurseScheduling

namespace VariableGrid

lemma pyRange_length (n : Int) : (pyRange n).length = n.toNat := by
  simp [pyRange]

lemma pyRange_nodup (n : Int) : (pyRange n).Nodup :=
  (List.nodup_range _).map Int.ofNat_injective

lemma length_flatMap_const {a b : Type} (l : List a) (f : a → List b)
    (c : Nat) (h : ∀ x, (f x).length = c) :
    (l.flatMap f).length = l.length * c := by
  induction l with
  | nil => simp
  | cons x t ih =>
    simp only [List.flatMap_cons, List.length_append, h, ih,
      List.length_cons]
    ring

lemma nodup_flatMap_key {a b : Type} (l : List a) (f : a → List b)
    (g : b → a) (hl : l.Nodup) (hf : ∀ x, (f x).Nodup)
    (hg : ∀ x, ∀ y ∈ f x, g y = x) :
    (l.flatMap f).Nodup := by
  rw [List.nodup_flatMap]
  refine ⟨fun x _ => hf x, ?_⟩
  exact hl.imp (fun hab y hya hyb =>
    hab (((hg _ _ hya).symm).trans (hg _ _ hyb)))

lemma timeblock_keys_length (num_drivers num_days num_timeblocks : Int)
    (states : List DriverScheduling.State) :
    (timeblock_keys num_drivers num_days num_timeblocks states).length =
      num_drivers.toNat * num_days.toNat * num_timeblocks.toNat *
        states.length := by
  unfold timeblock_keys
  rw [length_flatMap_const _ _
    (num_days.toNat * (num_timeblocks.toNat * states.length))
    (fun driver => ?_), pyRange_length]
  · ring
  · rw [length_flatMap_const _ _ (num_timeblocks.toNat * states.length)
      (fun day => ?_), pyRange_length]
    rw [length_flatMap_const _ _ states.length
      (fun block => ?_), pyRange_length]
    exact List.length_map _ _

lemma timeblock_keys_nodup (num_drivers num_days num_timeblocks : Int)
    (states : List DriverScheduling.State) (hst : states.Nodup) :
    (timeblock_keys num_drivers num_days num_timeblocks states).Nodup := by
  unfold timeblock_keys
  refine nodup_flatMap_key _ _ (fun t => t.1) (pyRange_nodup _)
    (fun driver => ?_) (fun driver y hy => ?_)
  · refine nodup_flatMap_key _ _ (fun t => t.2.1) (pyRange_nodup _)
      (fun day => ?_) (fun day y hy => ?_)
    · refine nodup_flatMap_key _ _ (fun t => t.2.2.1) (pyRange_nodup _)
        (fun block => ?_) (fun block y hy => ?_)
      · exact hst.map (fun s1 s2 h => by simpa using h)
      · obtain ⟨st, hmem, rfl⟩ := List.mem_map.mp hy
        rfl
    · obtain ⟨block, hb, hy2⟩ := List.mem_flatMap.mp hy
      obtain ⟨st, hmem, rfl⟩ := List.mem_map.mp hy2
      rfl
  · obtain ⟨day, hd, hy1⟩ := List.mem_flatMap.mp hy
    obtain ⟨block, hb, hy2⟩ := List.mem_flatMap.mp hy1
    obtain ⟨st, hmem, rfl⟩ := List.mem_map.mp hy2
    rfl

/-- C9 (counterexample): supplying a non-positive count to the grid
construction does not fail: the loop over an empty range completes
normally and the resulting grid is empty, so no `InvalidDimension`
error exists anywhere in the construction. -/
theorem C9_counterexample :
    timeblock_keys 0 1 6 DriverScheduling.all_states = [] ∧
    (timeblock_keys 0 1 6 DriverScheduling.all_states).length = 0 := by
  exact ⟨rfl, rfl⟩

/-- C9 (amended): grid construction never fails.  For every choice of
counts it allocates exactly `drivers * days * blocks * states` fresh
variables (counts clamped to zero when non-positive), the allocated
keys are pairwise distinct, and when any count is non-positive the
grid is empty rather than an error. -/
theorem C9_grid_construction :
    ∀ num_drivers num_days num_timeblocks : Int,
      (timeblock_keys num_drivers num_days num_timeblocks
        DriverScheduling.all_states).length =
        num_drivers.toNat * num_days.toNat * num_timeblocks.toNat *
          DriverScheduling.all_states.length ∧
      (timeblock_keys num_drivers num_days num_timeblocks
        DriverScheduling.all_states).Nodup ∧
      ((num_drivers ≤ 0 ∨ num_days ≤ 0 ∨ num_timeblocks ≤ 0) →
        timeblock_keys num_drivers num_days num_timeblocks
          DriverScheduling.all_states = []) := by
  intro nd nday nb
  refine ⟨timeblock_keys_length nd nday nb _,
    timeblock_keys_nodup nd nday nb _ (by decide), ?_⟩
  intro h
  apply List.length_eq_zero.mp
  rw [timeblock_keys_length]
  rcases h with h | h | h
  · simp [Int.toNat_of_nonpos h]
  · simp [Int.toNat_of_nonpos h]
  · simp [Int.toNat_of_nonpos h]

/-- C9 (witness): the allocation count at the source dimensions
(6 drivers, 1 day, 6 blocks, 3 states), and an empty grid at a
negative driver count. -/
theorem C9_witness :
    (timeblock_keys 6 1 6 DriverScheduling.all_states).length =
      (6 : Int).toNat * (1 : Int).toNat * (6 : Int).toNat *
        DriverScheduling.all_states.length ∧
    timeblock_keys (-2) 1 6 DriverScheduling.all_states = [] :=
  ⟨(C9_grid_construction 6 1 6).1,
    (C9_grid_construction (-2) 1 6).2.2 (Or.inl (by decide))⟩

end VariableGrid
